import Mathlib

/-!
# Verification development for the admin-fabric-chatbot aggregation engine

Shallow embedding, in Lean 4, of the deterministic query/aggregation code of the
repository (src/smart_api_handler.py, src/rag_chatbot.py, src/livedata_integration.py,
src/spell_corrector.py), together with theorems settling the frozen claims C1-C10.

Modelling conventions:
* pandas DataFrames become `List Row`; a row's `quantity`/`rate` cells are kept raw
  (`Option String`, `none` modelling a missing/NaN cell), exactly as the CSV holds them.
* the `date` column is kept as a parsed calendar date (the source converts it with
  `pd.to_datetime` before every use; unparseable dates would raise there, which no claim
  exercises).  The pandas `Timestamp` range bound (years 1678-2261) is not modelled.
* machine floats are modelled as `ℚ`; fallible parsing (`float(...)`,
  `pd.to_numeric(errors="coerce")`, `strptime`) returns `Option`/`Except`.
* string scanning (the `re` patterns and substring tests of the source) is implemented
  character-by-character on `List Char`, following each regex literally.
-/

namespace FabricChatbot

/-- A calendar date, as produced by `pd.to_datetime` / `datetime.strptime`. -/
structure Date where
  year : Nat
  month : Nat
  day : Nat
deriving DecidableEq, Repr

/-- One sales record of the dataset (columns used by the claims).  `quantity` and `rate`
are the raw text cells; `none` models a missing (NaN) cell. -/
structure Row where
  id : String
  date : Date
  status : String
  weave : String
  quality : String
  composition : String
  agentName : String
  customerName : String
  quantity : Option String
  rate : Option String
deriving DecidableEq, Repr

/-! ## Character and string helpers -/

/-- Numeric value of a digit character. -/
def digitVal (c : Char) : Nat := c.toNat - 48

def isDigitChar (c : Char) : Bool := c.isDigit

/-- Value of a digit run read left to right. -/
def natOfDigits (cs : List Char) : Nat := cs.foldl (fun a c => 10 * a + digitVal c) 0

/-- `str.strip()`: drop whitespace from both ends. -/
def trimChars (cs : List Char) : List Char :=
  ((cs.dropWhile Char.isWhitespace).reverse.dropWhile Char.isWhitespace).reverse

/-- `str.lower()` (ASCII, which is all the data holds). -/
def lowerChars (cs : List Char) : List Char := cs.map Char.toLower

/-- Substring containment, `needle in hay` of Python. -/
def containsSub (needle hay : List Char) : Bool :=
  (List.range (hay.length + 1)).any (fun i => needle.isPrefixOf (hay.drop i))

/-! ## Numeric cell parsing

`parseDecimalCore` parses `digits [ "." digits ]` (either digit group may be empty but
not both); it is the semantics of Python `float(...)` on the comma-stripped tokens the
quantity regex can produce, `none` modelling the `ValueError`.  `parseDecimal` adds an
optional sign, giving the coercion `pd.to_numeric(..., errors="coerce")` applies to one
cell (exponent forms, which the dataset never holds, are not modelled). -/

def parseDecimalCore (cs : List Char) : Option ℚ :=
  let intPart := cs.takeWhile isDigitChar
  let rest := cs.dropWhile isDigitChar
  match rest with
  | [] => if intPart.isEmpty then none else some (natOfDigits intPart : ℚ)
  | c :: rest2 =>
    if c = '.' then
      let fracPart := rest2.takeWhile isDigitChar
      if (rest2.dropWhile isDigitChar).isEmpty then
        if intPart.isEmpty && fracPart.isEmpty then none
        else some ((natOfDigits intPart : ℚ) + (natOfDigits fracPart : ℚ) / 10 ^ fracPart.length)
      else none
    else none

def parseDecimal (cs : List Char) : Option ℚ :=
  match cs with
  | '-' :: rest => (parseDecimalCore rest).map (fun q => -q)
  | '+' :: rest => parseDecimalCore rest
  | _ => parseDecimalCore cs

/-- `pd.to_numeric(cell, errors="coerce")` on one cell: `none` is NaN. -/
def pdToNumeric (v : Option String) : Option ℚ :=
  v.bind (fun s => parseDecimal (trimChars s.data))

/-- `pd.to_numeric(df["rate"], errors="coerce").fillna(0)` on one cell
(smart_api_handler.clean_quantity_data). -/
def rateClean (v : Option String) : ℚ := (pdToNumeric v).getD 0

/-! ## clean_quantity_data.extract_quantity (src/smart_api_handler.py)

The source lowercases and strips the cell, returns 0 for a fixed list of garbage tokens,
finds the first match of the regex `[\d,]+\.?\d*`, strips commas and converts with
`float`, catching `ValueError` to 0.  The first regex match is the first maximal run of
digits/commas, extended by an optional dot plus digit run. -/

def garbageTokens : List (List Char) :=
  [['g'], ['t','y','y'], ['f','h','y'], ['s','o','m','e','t','h','i','n','g'],
   ['r','b','i'], ['f','t','g'], ['h'], ['g','f','h'], ['n','m'], ['m','x','m']]

def isNumTokChar (c : Char) : Bool := c.isDigit || c = ','

/-- First match of `[\d,]+\.?\d*` in the list, if any. -/
def findNumToken : List Char → Option (List Char)
  | [] => none
  | c :: cs =>
    if isNumTokChar c then
      let run := (c :: cs).takeWhile isNumTokChar
      match (c :: cs).dropWhile isNumTokChar with
      | '.' :: rest2 => some (run ++ '.' :: rest2.takeWhile isDigitChar)
      | _ => some run
    else findNumToken cs

/-- Embedding of `extract_quantity`: total, garbage and parse failures coerce to 0. -/
def extractQuantity (v : Option String) : ℚ :=
  match v with
  | none => 0
  | some s =>
    let vs := lowerChars (trimChars s.data)
    if vs ∈ garbageTokens then 0
    else
      match findNumToken vs with
      | none => 0
      | some tok =>
        match parseDecimalCore (tok.filter (fun c => c ≠ ',')) with
        | none => 0
        | some q => q

/-- `extract_quantity` with the Python exception flow made explicit: `Except.error`
would be an exception escaping the helper.  The `float` ValueError is caught by the
source's `try/except` and mapped to 0, so the result is always `Except.ok`. -/
def extractQuantityE (v : Option String) : Except String ℚ :=
  match v with
  | none => Except.ok 0
  | some s =>
    let vs := lowerChars (trimChars s.data)
    if vs ∈ garbageTokens then Except.ok 0
    else
      match findNumToken vs with
      | none => Except.ok 0
      | some tok =>
        match parseDecimalCore (tok.filter (fun c => c ≠ ',')) with
        | none => Except.ok 0
        | some q => Except.ok q

/-- First maximal run of digits-and-thousands-separators in the list, if any. -/
def findDigitCommaRun : List Char → Option (List Char)
  | [] => none
  | c :: cs =>
    if isNumTokChar c then some ((c :: cs).takeWhile isNumTokChar)
    else findDigitCommaRun cs

/-- Claim-side definition, following C6's original wording: the numeric value of the
first run of digits (with optional thousands separators) when one exists, 0 otherwise.
A decimal continuation of the run is NOT part of the value under this wording. -/
def specQuantityOrig (v : Option String) : ℚ :=
  match v with
  | none => 0
  | some s =>
    match findDigitCommaRun (lowerChars (trimChars s.data)) with
    | none => 0
    | some run =>
      match parseDecimalCore (run.filter (fun c => c ≠ ',')) with
      | none => 0
      | some q => q

/-- Claim-side definition, following C6's amended wording: the numeric value of the
first maximal run of digits/thousands-separators together with its optional decimal
continuation, when that token contains a digit; 0 otherwise. -/
def specQuantityAmended (v : Option String) : ℚ :=
  match v with
  | none => 0
  | some s =>
    match findNumToken (lowerChars (trimChars s.data)) with
    | none => 0
    | some tok =>
      if tok.any isDigitChar then
        (parseDecimalCore (tok.filter (fun c => c ≠ ','))).getD 0
      else 0

/-! ## filter_by_date (src/smart_api_handler.py, lines 238-305)

The source tries, in order: the regex `\b(\d{1,2})[dash slash](\d{1,2})[dash slash](\d{4})\b` (groups
interpreted as DD-MM-YYYY if that is a valid date, else MM-DD-YYYY), the regex
`\b(\d{4})[dash slash](\d{1,2})[dash slash](\d{1,2})\b`, a month-name substring table, and the regex
`\b(20\d{2})\b`.  An explicit-date match is only *returned* when at least one row has
that exact date; otherwise control falls through to the next stage.  Each regex is
implemented below character-by-character with the greedy/backtracking behaviour of the
original pattern. -/

/-- Python `\w` (ASCII range, which is all the questions hold). -/
def isWordChar (c : Char) : Bool := c.isAlphanum || c = '_'

/-- A `\b` boundary holds before position `i` of `s` when a word character follows an
absent or non-word predecessor; all uses below have a digit at `i`. -/
def boundaryBefore (s : List Char) (i : Nat) : Bool :=
  match i with
  | 0 => true
  | j + 1 =>
    match (s.drop j).head? with
    | none => true
    | some c => !(isWordChar c)

/-- A `\b` boundary after a digit at position `i - 1`: position `i` is the end or holds
a non-word character. -/
def boundaryAfter (s : List Char) (i : Nat) : Bool :=
  match (s.drop i).head? with
  | none => true
  | some c => !(isWordChar c)

/-- Exactly `n` digits starting at position `i`, as a number. -/
def digitsAt (s : List Char) (i n : Nat) : Option Nat :=
  let seg := (s.drop i).take n
  if seg.length = n && seg.all isDigitChar then some (natOfDigits seg) else none

/-- A `[dash slash]` separator at position `i`. -/
def isSepAt (s : List Char) (i : Nat) : Bool :=
  match (s.drop i).head? with
  | some c => c = '-' || c = '/'
  | none => false

/-- One alternative of `\d{1,2}[dash slash]\d{1,2}[dash slash]\d{4}\b` at position `i`, with the two
short groups taking `la` and `lb` digits. -/
def tryDMYShape (s : List Char) (i la lb : Nat) : Option (Nat × Nat × Nat) :=
  match digitsAt s i la with
  | none => none
  | some p1 =>
    if isSepAt s (i + la) then
      match digitsAt s (i + la + 1) lb with
      | none => none
      | some p2 =>
        if isSepAt s (i + la + 1 + lb) then
          match digitsAt s (i + la + lb + 2) 4 with
          | none => none
          | some y => if boundaryAfter s (i + la + lb + 6) then some (p1, p2, y) else none
        else none
    else none

/-- The regex `\b(\d{1,2})[dash slash](\d{1,2})[dash slash](\d{4})\b` at position `i`; greedy groups
backtrack from two digits to one. -/
def matchDMYAt (s : List Char) (i : Nat) : Option (Nat × Nat × Nat) :=
  if boundaryBefore s i then
    (tryDMYShape s i 2 2).orElse fun _ =>
      (tryDMYShape s i 2 1).orElse fun _ =>
        (tryDMYShape s i 1 2).orElse fun _ => tryDMYShape s i 1 1
  else none

/-- `re.search` of the first date pattern: leftmost match. -/
def searchDMY (s : List Char) : Option (Nat × Nat × Nat) :=
  (List.range s.length).findSome? (matchDMYAt s)

/-- One alternative of `\d{4}[dash slash]\d{1,2}[dash slash]\d{1,2}\b` at position `i`. -/
def tryYMDShape (s : List Char) (i lb lc : Nat) : Option (Nat × Nat × Nat) :=
  match digitsAt s i 4 with
  | none => none
  | some y =>
    if isSepAt s (i + 4) then
      match digitsAt s (i + 5) lb with
      | none => none
      | some m =>
        if isSepAt s (i + 5 + lb) then
          match digitsAt s (i + lb + 6) lc with
          | none => none
          | some d => if boundaryAfter s (i + lb + 6 + lc) then some (y, m, d) else none
        else none
    else none

/-- The regex `\b(\d{4})[dash slash](\d{1,2})[dash slash](\d{1,2})\b` at position `i`. -/
def matchYMDAt (s : List Char) (i : Nat) : Option (Nat × Nat × Nat) :=
  if boundaryBefore s i then
    (tryYMDShape s i 2 2).orElse fun _ =>
      (tryYMDShape s i 2 1).orElse fun _ =>
        (tryYMDShape s i 1 2).orElse fun _ => tryYMDShape s i 1 1
  else none

/-- `re.search` of the second date pattern: leftmost match. -/
def searchYMD (s : List Char) : Option (Nat × Nat × Nat) :=
  (List.range s.length).findSome? (matchYMDAt s)

/-- Gregorian leap year. -/
def isLeap (y : Nat) : Bool := y % 4 = 0 && (y % 100 ≠ 0 || y % 400 = 0)

def daysInMonth (y m : Nat) : Nat :=
  if m = 2 then (if isLeap y then 29 else 28)
  else if m = 4 || m = 6 || m = 9 || m = 11 then 30
  else 31

/-- Whether `pd.to_datetime` accepts year-month-day (calendar validity; the pandas
`Timestamp` range bound is not modelled). -/
def validDate (y m d : Nat) : Bool :=
  1 ≤ m && m ≤ 12 && 1 ≤ d && d ≤ daysInMonth y m

/-- The source first tries `{year}-{part2}-{part1}` (DD-MM-YYYY reading) and on failure
`{year}-{part1}-{part2}` (MM-DD-YYYY reading); `none` when both raise. -/
def dmyResolve (y p1 p2 : Nat) : Option (Nat × Nat) :=
  if validDate y p2 p1 then some (p2, p1)
  else if validDate y p1 p2 then some (p1, p2)
  else none

/-- The month keyword table, in the source's (insertion) order. -/
def monthNames : List (String × Nat) :=
  [("january", 1), ("jan", 1), ("february", 2), ("feb", 2), ("march", 3), ("mar", 3),
   ("april", 4), ("apr", 4), ("may", 5), ("june", 6), ("jun", 6),
   ("july", 7), ("jul", 7), ("august", 8), ("aug", 8), ("september", 9), ("sep", 9),
   ("october", 10), ("oct", 10), ("november", 11), ("nov", 11), ("december", 12), ("dec", 12)]

/-- First month keyword appearing as a substring of the lowered question (the source's
extra disjuncts `" name "` and `"on name"` are subsumed by plain containment). -/
def firstMonthHit (ql : List Char) : Option (String × Nat) :=
  monthNames.find? (fun p => containsSub p.1.data ql)

/-- The regex `\b(20\d{2})\b`: leftmost match. -/
def matchYearAt (s : List Char) (i : Nat) : Option Nat :=
  if boundaryBefore s i then
    match digitsAt s i 4 with
    | some y => if 2000 ≤ y && y ≤ 2099 && boundaryAfter s (i + 4) then some y else none
    | none => none
  else none

def searchYear (s : List Char) : Option Nat :=
  (List.range s.length).findSome? (matchYearAt s)

/-- `%B` month names for the scope label. -/
def monthFullName (m : Nat) : String :=
  (["January", "February", "March", "April", "May", "June", "July", "August",
    "September", "October", "November", "December"].getD (m - 1) "")

def pad2 (n : Nat) : String := if n < 10 then "0" ++ toString n else toString n

/-- `"on " + target_date.strftime("%B %d, %Y")`. -/
def scopeOn (d : Date) : String :=
  "on " ++ monthFullName d.month ++ " " ++ pad2 d.day ++ ", " ++ toString d.year

/-- `str.title()` on a single lowercase word. -/
def titleCase (s : String) : String :=
  match s.data with
  | [] => ""
  | c :: cs => String.mk (c.toUpper :: cs)

/-- Month-name then bare-year filtering: the tail of `filter_by_date` after both
explicit-date patterns have failed to return. -/
def monthYearFilter (rows : List Row) (ql : List Char) : List Row × String :=
  match firstMonthHit ql with
  | some (name, m) => (rows.filter (fun r => r.date.month == m), "in " ++ titleCase name)
  | none =>
    match searchYear ql with
    | some y => (rows.filter (fun r => r.date.year == y), "in " ++ toString y)
    | none => (rows, "")

/-- Second pattern (YYYY-MM-DD) stage of `filter_by_date`. -/
def tryDatePattern2 (rows : List Row) (s ql : List Char) : List Row × String :=
  match searchYMD s with
  | some (y, m, d) =>
    if validDate y m d then
      let filtered := rows.filter (fun r => decide (r.date = ⟨y, m, d⟩))
      if filtered.isEmpty then monthYearFilter rows ql else (filtered, scopeOn ⟨y, m, d⟩)
    else monthYearFilter rows ql
  | none => monthYearFilter rows ql

/-- Embedding of `filter_by_date`: explicit dates are filtered on only when they match
at least one row; otherwise control falls through to month-name, then bare-year
filtering, then the unfiltered data with an empty scope label. -/
def filterByDate (rows : List Row) (question : String) : List Row × String :=
  let s := question.data
  let ql := lowerChars s
  match searchDMY s with
  | some (p1, p2, y) =>
    match dmyResolve y p1 p2 with
    | some (m, d) =>
      let filtered := rows.filter (fun r => decide (r.date = ⟨y, m, d⟩))
      if filtered.isEmpty then tryDatePattern2 rows s ql else (filtered, scopeOn ⟨y, m, d⟩)
    | none => tryDatePattern2 rows s ql
  | none => tryDatePattern2 rows s ql

/-! ## call_math_api routing keywords (src/smart_api_handler.py, lines 306-348)

`call_math_api` date-filters the data, cleans quantity/rate, drops `Declined` rows into
`valid_data`, and dispatches on substrings of the lowered question.  The predicates
below record that dispatch so the concrete questions used in the theorems provably
reach the branch being analysed. -/

def performanceTrigger (ql : List Char) : Bool :=
  containsSub "best".data ql || containsSub "top".data ql || containsSub "highest".data ql ||
  containsSub "performing".data ql || containsSub "leader".data ql || containsSub "winner".data ql

def categoryWord (ql : List Char) : Bool :=
  containsSub "weave".data ql || containsSub "quality".data ql || containsSub "composition".data ql

def mostSoldTrigger (ql : List Char) : Bool :=
  containsSub "most sold".data ql || (containsSub "highest".data ql && categoryWord ql) ||
  containsSub "best selling".data ql

def leastSoldTrigger (ql : List Char) : Bool :=
  containsSub "least sold".data ql || (containsSub "lowest".data ql && categoryWord ql)

/-- The question reaches `_handle_general_math_query`. -/
def smartRoutesToGeneral (ql : List Char) : Bool :=
  !performanceTrigger ql && !mostSoldTrigger ql && !leastSoldTrigger ql &&
  !containsSub "compare".data ql

def countTrigger (ql : List Char) : Bool :=
  containsSub "how many sales".data ql || containsSub "sales happened".data ql ||
  containsSub "give me the sales".data ql || containsSub "number of sales".data ql ||
  containsSub "count".data ql

/-- The question reaches the sales-count branch of `_handle_general_math_query`. -/
def smartRoutesToCount (q : String) : Bool :=
  let ql := lowerChars q.data
  smartRoutesToGeneral ql && countTrigger ql

/-- The question reaches the total-revenue branch of `_handle_general_math_query`
(the count branch is tested first). -/
def smartRoutesToTotalRevenue (q : String) : Bool :=
  let ql := lowerChars q.data
  smartRoutesToGeneral ql && !countTrigger ql &&
  (containsSub "total".data ql && containsSub "revenue".data ql)

/-! ## Smart-handler aggregation (src/smart_api_handler.py, lines 306-620) -/

def cleanQ (r : Row) : ℚ := extractQuantity r.quantity

def cleanR (r : Row) : ℚ := rateClean r.rate

def notDeclined (r : Row) : Bool := r.status != "Declined"

/-- `valid_data = analysis_data[analysis_data["status"] != "Declined"]`. -/
def validData (d : List Row) : List Row := d.filter notDeclined

/-- The numbers of the sales-count branch: `total_all_records`, `total_valid_records`
and `declined_orders`, computed on the date-filtered data. -/
structure CountReport where
  totalAll : Nat
  totalValid : Nat
  declined : Nat
deriving DecidableEq, Repr

def salesCountReport (rows : List Row) (question : String) : CountReport :=
  let allData := (filterByDate rows question).1
  ⟨allData.length, (validData allData).length,
   (allData.filter (fun r => r.status == "Declined")).length⟩

/-- The headline count of the branch's response: the total record count when declined
rows are present ("{total} total"), else the valid count ("{valid} sales"). -/
def reportedCount (c : CountReport) : Nat := if 0 < c.declined then c.totalAll else c.totalValid

def smartSalesCount (rows : List Row) (question : String) : Nat :=
  reportedCount (salesCountReport rows question)

/-- `stats["total_revenue"] = (valid_data["quantity_clean"] * valid_data["rate_clean"]).sum()`. -/
def totalRevenueStat (valid : List Row) : ℚ := (valid.map (fun r => cleanQ r * cleanR r)).sum

/-- The total-revenue answer of `_handle_general_math_query` reached through
`call_math_api`'s date filter and declined-row exclusion. -/
def smartTotalRevenue (rows : List Row) (question : String) : ℚ :=
  totalRevenueStat (validData (filterByDate rows question).1)

/-! ### _handle_most_sold_query (lines 350-397)

The handler lowercases the group column, sums `quantity_clean` per key, sorts the sums
descending and reports `index[0]` as the single winner, with the top three as the
ranking.  pandas `groupby` sorts keys ascending; `sort_values(ascending=False)` leaves
the relative order of equal sums unspecified (quicksort) — the embedding uses a stable
descending sort, so equal sums keep the ascending-key order.  Either way the handler's
result names exactly one winner and has no tie field. -/

/-- Keep the first occurrence of each element (first-appearance order). -/
def dedupKeepFirst (l : List String) : List String :=
  l.foldl (fun acc x => if x ∈ acc then acc else acc ++ [x]) []

def lowerStr (s : String) : String := String.mk (lowerChars s.data)

/-- Descending order on grouped sums. -/
def pairGe (a b : String × ℚ) : Prop := b.2 ≤ a.2

instance : DecidableRel pairGe := fun a b => inferInstanceAs (Decidable (b.2 ≤ a.2))

instance : IsTotal (String × ℚ) pairGe := ⟨fun a b => le_total b.2 a.2⟩

instance : IsTrans (String × ℚ) pairGe := ⟨fun _ _ _ h1 h2 => le_trans h2 h1⟩

/-- `groupby` keys: distinct lowered values, sorted ascending. -/
def groupKeysBy (d : List Row) (key : Row → String) : List String :=
  List.insertionSort (fun a b : String => a ≤ b) (dedupKeepFirst (d.map (fun r => lowerStr (key r))))

/-- Grouped `quantity_clean` sum of one key. -/
def groupQtySum (d : List Row) (key : Row → String) (k : String) : ℚ :=
  ((d.filter (fun r => lowerStr (key r) == k)).map cleanQ).sum

def groupPairs (d : List Row) (key : Row → String) : List (String × ℚ) :=
  (groupKeysBy d key).map (fun k => (k, groupQtySum d key k))

/-- The handler's result: the single named winner, its quantity, and the top-3 ranking.
`none` models the `IndexError` on empty data (caught by `call_math_api` as an
"Analysis failed" string). -/
structure Ranked where
  winner : String
  topQty : ℚ
  ranking : List (String × ℚ)
deriving DecidableEq, Repr

def mostSoldBy (key : Row → String) (valid : List Row) : Option Ranked :=
  match List.insertionSort pairGe (groupPairs valid key) with
  | [] => none
  | p :: ps => some ⟨p.1, p.2, (p :: ps).take 3⟩

/-! ### _handle_agent_performance_query (lines 570-618): group by raw `agentName`,
revenue = Σ quantity_clean·rate_clean per agent, sort descending by revenue, report
`index[0]` (display rounding not modelled). -/

structure PerfResult where
  best : String
  bestRevenue : ℚ
  bestOrders : Nat
  bestQuantity : ℚ
deriving DecidableEq, Repr

def agentRevenue (valid : List Row) (k : String) : ℚ :=
  ((valid.filter (fun r => r.agentName == k)).map (fun r => cleanQ r * cleanR r)).sum

def agentPerformance (valid : List Row) : Option PerfResult :=
  let keys := List.insertionSort (fun a b : String => a ≤ b) (dedupKeepFirst (valid.map (fun r => r.agentName)))
  match List.insertionSort pairGe (keys.map (fun k => (k, agentRevenue valid k))) with
  | [] => none
  | p :: _ =>
    some ⟨p.1, p.2, (valid.filter (fun r => r.agentName == p.1)).length,
          ((valid.filter (fun r => r.agentName == p.1)).map cleanQ).sum⟩

/-! ## rag_chatbot revenue and performance (src/rag_chatbot.py)

These paths parse `quantity`/`rate` with `pd.to_numeric(errors="coerce")`; a NaN factor
makes the row's revenue NaN, which the pandas sums skip — embedded as contributing 0. -/

def statusCP (r : Row) : Bool := r.status == "Confirmed" || r.status == "Processed"

def rowRevenueNum (r : Row) : ℚ :=
  match pdToNumeric r.quantity, pdToNumeric r.rate with
  | some q, some c => q * c
  | _, _ => 0

/-- Lines 717-723: total revenue over all `Confirmed`/`Processed` orders. -/
def ragTotalRevenue (df : List Row) : ℚ := ((df.filter statusCP).map rowRevenueNum).sum

/-- `calculate_revenue_by_year` (lines 338-367). -/
def calculateRevenueByYear (df : List Row) (year : Nat) : ℚ :=
  ((df.filter (fun r => statusCP r && r.date.year == year)).map rowRevenueNum).sum

/-- `calculate_revenue_by_month` (lines 369-402). -/
def calculateRevenueByMonth (df : List Row) (year month : Nat) : ℚ :=
  ((df.filter (fun r => statusCP r && r.date.year == year && r.date.month == month)).map
    rowRevenueNum).sum

/-- `calculate_revenue_by_order_id` (lines 404-433): the revenue of the *first* matching
`Confirmed`/`Processed` row (`iloc[0]`), 0 when none matches. -/
def calculateRevenueByOrderId (df : List Row) (orderId : String) : ℚ :=
  match df.filter (fun r => r.id == orderId && statusCP r) with
  | [] => 0
  | r :: _ => rowRevenueNum r

/-- Customer-scoped revenue (lines 637-645): case-insensitive name match, then the
`Confirmed`/`Processed` filter, then the revenue sum. -/
def revenueForCustomer (df : List Row) (name : String) : ℚ :=
  ((((df.filter (fun r => lowerStr r.customerName == lowerStr name)).filter statusCP)).map
    rowRevenueNum).sum

/-- Agent-scoped revenue (lines 664-672). -/
def revenueForAgent (df : List Row) (name : String) : ℚ :=
  ((((df.filter (fun r => lowerStr r.agentName == lowerStr name)).filter statusCP)).map
    rowRevenueNum).sum

/-- Date-scoped revenue (lines 676-687). -/
def revenueForDate (df : List Row) (d : Date) : ℚ :=
  ((((df.filter (fun r => decide (r.date = d))).filter statusCP)).map rowRevenueNum).sum

/-! ### best_performance_analysis.get_best (lines 304-333)

`value_counts().idxmax()` picks a key of maximal row count (ties left unspecified by
pandas; embedded as the first-appearing maximal key); `groupby(col)["revenue"].sum()
.idxmax()` picks the first maximal key of the ascending-sorted group keys. -/

def argmaxFirst {β : Type} [LinearOrder β] (score : String → β) (keys : List String) :
    Option String :=
  keys.foldl (fun best k =>
    match best with
    | none => some k
    | some b => if score b < score k then some k else some b) none

def countIn (df : List Row) (key : Row → String) (k : String) : Nat :=
  (df.filter (fun r => key r == k)).length

def revSumIn (df : List Row) (key : Row → String) (k : String) : ℚ :=
  ((df.filter (fun r => key r == k)).map rowRevenueNum).sum

structure BestPerf where
  mostOrdersKey : String
  mostOrdersCount : Nat
  highestRevenueKey : String
  highestRevenueVal : ℚ
deriving DecidableEq, Repr

def ragGetBest (dfValid : List Row) (key : Row → String) : Option BestPerf :=
  let appearKeys := dedupKeepFirst (dfValid.map key)
  let sortedKeys := List.insertionSort (fun a b : String => a ≤ b) appearKeys
  match argmaxFirst (fun k => countIn dfValid key k) appearKeys,
        argmaxFirst (fun k => revSumIn dfValid key k) sortedKeys with
  | some kc, some kr => some ⟨kc, countIn dfValid key kc, kr, revSumIn dfValid key kr⟩
  | _, _ => none

/-- `best_performance_analysis` applied to one column: `df_valid` drops `Declined`. -/
def bestPerformanceFor (rows : List Row) (key : Row → String) : Option BestPerf :=
  ragGetBest (rows.filter notDeclined) key

/-! ## Prediction (src/livedata_integration.py, lines 805-950)

`analyze_historical_trends` groups API records by `"YYYY-MM"` keys; a record whose date
is missing/unparseable, or whose quantity or rate raises in `float(...)`, is skipped by
the `try/except` (a missing quantity/rate defaults to `0` before `float`, hence parses).
Month keys are embedded as `year*100 + month`, whose numeric order coincides with the
string order of `"YYYY-MM"` keys for four-digit years.  Category tracking
(`weave_types`/`compositions`/`qualities`) is never read by `predict_future_sales` and
is omitted. -/

/-- One record of the fetched API data, with the three fallibly-parsed fields used by
the trend analysis; `none` models a missing/unparseable date or a `float(...)` failure. -/
structure PRecord where
  date : Option Date
  quantity : Option ℚ
  rate : Option ℚ
deriving DecidableEq, Repr

structure MonthAgg where
  totalQuantity : ℚ
  totalRevenue : ℚ
  orderCount : Nat
deriving DecidableEq, Repr

/-- Update the (insertion-ordered) month table with one aggregated value. -/
def upsertMonth (acc : List (Nat × MonthAgg)) (k : Nat) (q rev : ℚ) : List (Nat × MonthAgg) :=
  match acc with
  | [] => [(k, ⟨q, rev, 1⟩)]
  | (k2, a) :: rest =>
    if k2 = k then
      (k2, ⟨a.totalQuantity + q, a.totalRevenue + rev, a.orderCount + 1⟩) :: rest
    else (k2, a) :: upsertMonth rest k q rev

/-- `analyze_historical_trends`: fold the records into the per-month table. -/
def analyzeHistoricalTrends (data : List PRecord) : List (Nat × MonthAgg) :=
  data.foldl
    (fun acc r =>
      match r.date, r.quantity, r.rate with
      | some d, some q, some rate => upsertMonth acc (d.year * 100 + d.month) q (q * rate)
      | _, _, _ => acc)
    []

/-- `calculate_growth_rates`: month-over-month growth between consecutive sorted months,
zero when the earlier month's quantity is not positive. -/
def calculateGrowthRates (monthly : List (Nat × MonthAgg)) : List (Nat × ℚ) :=
  let sortedMonths := List.insertionSort (fun a b : Nat => a ≤ b) (monthly.map (fun e => e.1))
  let qtyOf : Nat → ℚ := fun k =>
    ((((monthly.find? (fun e => e.1 = k)).map (fun e => e.2)).getD ⟨0, 0, 0⟩) :
      MonthAgg).totalQuantity
  (sortedMonths.zip sortedMonths.tail).map
    (fun pc =>
      let prevQty := qtyOf pc.1
      let currQty := qtyOf pc.2
      (pc.2, if 0 < prevQty then (currQty - prevQty) / prevQty * 100 else 0))

/-- Result of `predict_future_sales`: either the error dictionary
(`error`/`prediction`/`confidence` keys) or the prediction dictionary.  The
`round(..., 2)` display rounding of the source is not modelled. -/
inductive PredOutcome where
  | failure (error : String) (prediction : ℚ) (confidence : String)
  | success (predictedQuantity predictedRevenue predictedOrders avgGrowthRate
      seasonalFactor : ℚ) (confidence : String) (monthsAhead : ℤ) (historicalMonths : Nat)
deriving DecidableEq, Repr

/-- Signed number of months from the latest historical month to the target date. -/
def monthsAheadOf (target : Date) (data : List PRecord) : ℤ :=
  let latest := ((analyzeHistoricalTrends data).map (fun e => e.1)).foldl max 0
  ((target.year : ℤ) - (latest / 100 : Nat)) * 12 + ((target.month : ℤ) - (latest % 100 : Nat))

/-- Embedding of `predict_future_sales` for an already-parsed target date.  The only
exception reachable after parsing is `0.0 ** negative` (when the average growth rate is
exactly -100), caught by the outer `try/except` into the generic error dictionary. -/
def predictFutureSales (target : Date) (data : List PRecord) : PredOutcome :=
  let monthly := analyzeHistoricalTrends data
  let growth := calculateGrowthRates monthly
  if monthly.isEmpty then
    PredOutcome.failure "Insufficient historical data for prediction" 0 "Low"
  else
    let totalMonths : ℚ := monthly.length
    let avgQuantity := (monthly.map (fun e => e.2.totalQuantity)).sum / totalMonths
    let avgRevenue := (monthly.map (fun e => e.2.totalRevenue)).sum / totalMonths
    let avgOrders := ((monthly.map (fun e => (e.2.orderCount : ℚ))).sum) / totalMonths
    let avgGrowthRate :=
      if growth.isEmpty then 5 else (growth.map (fun e => e.2)).sum / (growth.length : ℚ)
    let sameMonths := (monthly.filter (fun e => e.1 % 100 = target.month)).map
      (fun e => e.2.totalQuantity)
    let seasonalFactor :=
      if sameMonths.isEmpty then 1
      else if 0 < avgQuantity then (sameMonths.sum / (sameMonths.length : ℚ)) / avgQuantity
      else 1
    let monthsAhead := monthsAheadOf target data
    let base : ℚ := 1 + avgGrowthRate / 100
    if base = 0 ∧ monthsAhead < 0 then
      PredOutcome.failure "Prediction error: zero to a negative power" 0 "Low"
    else
      let growthMultiplier := base ^ monthsAhead
      PredOutcome.success (avgQuantity * seasonalFactor * growthMultiplier)
        (avgRevenue * seasonalFactor * growthMultiplier)
        (avgOrders * seasonalFactor * growthMultiplier)
        avgGrowthRate seasonalFactor
        (if monthsAhead ≤ 6 then "High" else if monthsAhead ≤ 12 then "Medium" else "Low")
        monthsAhead monthly.length

/-! ## Fuzzy keyword matching (src/livedata_integration.py lines 699-775)

`is_sales_related_question` splits the lowered question on whitespace and accepts a
word when `difflib.get_close_matches(word, sales_keywords, n=1, cutoff=0.6)` is
non-empty; against live API values the same test runs with `cutoff=0.75` after an exact
membership test.  `get_close_matches` returns (at most `n` of) the candidates whose
`SequenceMatcher` ratio is at least the cutoff — its `real_quick_ratio`/`quick_ratio`
pre-filters are upper bounds of `ratio` and never reject an eligible candidate — so the
call is non-empty exactly when some candidate's ratio reaches the cutoff.  The
`SequenceMatcher` ratio (junk-free; `autojunk` only affects second sequences of length
at least 200, far beyond question words) is `2*M/T`, with `M` the total size of the
recursively computed matching blocks and `T` the combined length. -/

/-- `difflib` `find_longest_match` on `a[alo:ahi]` and `b[blo:bhi]` (no junk): the
longest matching block, earliest in `a`, then earliest in `b`.  State `j2len` maps a
position `j` of `b` to the length of the longest match ending at the current `i` and
`j`. -/
def findLongestMatch (a b : List Char) (alo ahi blo bhi : Nat) : Nat × Nat × Nat :=
  let lookup := fun (m : List (Nat × Nat)) (k : Nat) =>
    (((m.find? (fun p => p.1 = k)).map (fun p => p.2)).getD 0)
  let outer := ((List.range ahi).filter (fun i => alo ≤ i)).foldl
    (fun (st : List (Nat × Nat) × Nat × Nat × Nat) i =>
      let js := (List.range bhi).filter
        (fun j => decide (blo ≤ j) && (b.getD j ' ' == a.getD i ' '))
      let inner := js.foldl
        (fun (st2 : List (Nat × Nat) × Nat × Nat × Nat) j =>
          let k := (if j = 0 then 0 else lookup st.1 (j - 1)) + 1
          let nj := (j, k) :: st2.1
          if st2.2.2.2 < k then (nj, i + 1 - k, j + 1 - k, k) else (nj, st2.2))
        ([], st.2)
      (inner.1, inner.2))
    ([], alo, blo, 0)
  outer.2

/-- Total size of the recursive matching blocks; the fuel (one more than the `a`
interval length bounds the recursion depth) never runs out. -/
def matchingTotal : Nat → List Char → List Char → Nat → Nat → Nat → Nat → Nat
  | 0, _, _, _, _, _, _ => 0
  | fuel + 1, a, b, alo, ahi, blo, bhi =>
    let m := findLongestMatch a b alo ahi blo bhi
    if m.2.2 = 0 then 0
    else
      matchingTotal fuel a b alo m.1 blo m.2.1 + m.2.2 +
        matchingTotal fuel a b (m.1 + m.2.2) ahi (m.2.1 + m.2.2) bhi

/-- `SequenceMatcher(None, a, b).ratio()`. -/
def seqRatio (a b : List Char) : ℚ :=
  let t := a.length + b.length
  if t = 0 then 1
  else 2 * (matchingTotal (a.length + 1) a b 0 a.length 0 b.length : ℚ) / (t : ℚ)

/-- Non-emptiness of `difflib.get_close_matches(word, poss, n=1, cutoff)`, which is all
the source inspects (`if matches: return True`). -/
def hasCloseMatch (word : String) (poss : List String) (cutoff : ℚ) : Bool :=
  poss.any (fun x => decide (cutoff ≤ seqRatio x.data word.data))

/-- The fixed keyword vocabulary of `is_sales_related_question`. -/
def salesKeywords : List String :=
  ["record", "dress", "sales", "trend", "predict", "forecast", "quantity", "rate",
   "revenue", "agent", "customer", "weave", "linen", "satin", "denim", "crepe", "twill",
   "premium", "standard", "economy", "cotton", "polyester", "spandex",
   "order", "status", "confirmed", "pending", "cancelled", "growth",
   "performance", "top", "best", "most", "sold", "item", "product",
   "month", "year", "quarter", "period", "analysis", "data", "id", "date",
   "festival", "diwali", "holi", "christmas", "eid", "pongal", "valentine",
   "mother day", "father day", "raksha bandhan", "karva chauth", "janmashtami",
   "ganesh chaturthi", "dussehra", "independence day", "republic day",
   "recommend", "suggest", "stock", "fabric for", "monsoon sale", "festive season",
   "quality", "kolity", "qualety", "qaulity", "qulaity",
   "composition", "komposition", "kumposison", "composision",
   "priya", "sowmiya", "mukilan", "karthik",
   "alice", "smith", "ravi", "qilyze", "jhon"]

/-- `question.lower().split()`: whitespace-separated words. -/
def splitWsAux : List Char → List Char → List (List Char)
  | [], acc => if acc.isEmpty then [] else [acc.reverse]
  | c :: cs, acc =>
    if c.isWhitespace then
      if acc.isEmpty then splitWsAux cs [] else acc.reverse :: splitWsAux cs []
    else splitWsAux cs (c :: acc)

def questionWords (q : String) : List String :=
  (splitWsAux (lowerChars q.data) []).map String.mk

/-- The first (fixed-vocabulary) fuzzy check of `is_sales_related_question`:
`get_close_matches(word, sales_keywords, n=1, cutoff=0.6)` per word. -/
def keywordFuzzyHit (q : String) : Bool :=
  (questionWords q).any (fun w => hasCloseMatch w salesKeywords (3 / 5))

/-- The live-data check: per word, exact membership in the extracted API values, else
`get_close_matches(word, api_keywords, n=1, cutoff=0.75)`. -/
def liveDataHit (apiKeys : List String) (q : String) : Bool :=
  (questionWords q).any (fun w => decide (w ∈ apiKeys) || hasCloseMatch w apiKeys (3 / 4))

/-! ## Shared lemmas -/

lemma notDeclined_idem (d : List Row) :
    (d.filter notDeclined).filter notDeclined = d.filter notDeclined := by
  simp [List.filter_filter]

lemma statusCP_notDeclined (r : Row) (h : statusCP r = true) : notDeclined r = true := by
  simp only [statusCP, Bool.or_eq_true, beq_iff_eq] at h
  simp only [notDeclined, bne_iff_ne, ne_eq]
  rcases h with h | h <;> simp [h]

lemma filter_absorb_notDeclined (p : Row → Bool) (hp : ∀ r, p r = true → notDeclined r = true)
    (d : List Row) : (d.filter notDeclined).filter p = d.filter p := by
  rw [List.filter_filter]
  refine List.filter_congr ?_
  intro a _
  cases hpa : p a with
  | false => simp
  | true => simp [hp a hpa]

/-! ## Claim theorems -/

/-- Claim C4 (confirmed).  Every performance-ranking, most-sold and revenue calculation
of the smart handler and the rag chatbot computes the same result on a row set and on
its subset of rows whose status is not `Declined`: `Declined` rows never influence
those aggregates. -/
theorem c4_declined_excluded :
    ∀ (d : List Row) (key : Row → String) (y m : Nat),
      mostSoldBy key (validData d) = mostSoldBy key (validData (d.filter notDeclined))
      ∧ agentPerformance (validData d) = agentPerformance (validData (d.filter notDeclined))
      ∧ totalRevenueStat (validData d) = totalRevenueStat (validData (d.filter notDeclined))
      ∧ bestPerformanceFor d key = bestPerformanceFor (d.filter notDeclined) key
      ∧ ragTotalRevenue d = ragTotalRevenue (d.filter notDeclined)
      ∧ calculateRevenueByMonth d y m = calculateRevenueByMonth (d.filter notDeclined) y m
      ∧ calculateRevenueByYear d y = calculateRevenueByYear (d.filter notDeclined) y := by
  intro d key y m
  have hidem : validData (d.filter notDeclined) = validData d := by
    simp only [validData]
    exact notDeclined_idem d
  refine ⟨by rw [hidem], by rw [hidem], by rw [hidem], ?_, ?_, ?_, ?_⟩
  · unfold bestPerformanceFor
    rw [notDeclined_idem]
  · unfold ragTotalRevenue
    rw [filter_absorb_notDeclined statusCP statusCP_notDeclined]
  · unfold calculateRevenueByMonth
    rw [filter_absorb_notDeclined _
      (fun r h => statusCP_notDeclined r (by simp only [Bool.and_eq_true] at h; exact h.1.1))]
  · unfold calculateRevenueByYear
    rw [filter_absorb_notDeclined _
      (fun r h => statusCP_notDeclined r (by simp only [Bool.and_eq_true] at h; exact h.1))]

/-- Claim C5 (confirmed).  Entity-scoped revenue lookups (month, year, order id,
customer, agent, date, and the general total) ignore any row whose status is neither
`Confirmed` nor `Processed`: prepending such a row never changes the returned revenue. -/
theorem c5_revenue_status_filter :
    ∀ (r : Row) (df : List Row) (y m : Nat) (oid nm : String) (dt : Date),
      r.status ≠ "Confirmed" → r.status ≠ "Processed" →
      calculateRevenueByMonth (r :: df) y m = calculateRevenueByMonth df y m
      ∧ calculateRevenueByYear (r :: df) y = calculateRevenueByYear df y
      ∧ calculateRevenueByOrderId (r :: df) oid = calculateRevenueByOrderId df oid
      ∧ revenueForCustomer (r :: df) nm = revenueForCustomer df nm
      ∧ revenueForAgent (r :: df) nm = revenueForAgent df nm
      ∧ revenueForDate (r :: df) dt = revenueForDate df dt
      ∧ ragTotalRevenue (r :: df) = ragTotalRevenue df := by
  intro r df y m oid nm dt h1 h2
  have hcp : statusCP r = false := by
    simp only [statusCP, Bool.or_eq_false_iff, beq_eq_false_iff_ne, ne_eq]
    exact ⟨h1, h2⟩
  refine ⟨?_, ?_, ?_, ?_, ?_, ?_, ?_⟩
  · simp [calculateRevenueByMonth, List.filter_cons, hcp]
  · simp [calculateRevenueByYear, List.filter_cons, hcp]
  · simp [calculateRevenueByOrderId, List.filter_cons, hcp]
  · unfold revenueForCustomer
    cases hp : (lowerStr r.customerName == lowerStr nm) <;> simp [List.filter_cons, hp, hcp]
  · unfold revenueForAgent
    cases hp : (lowerStr r.agentName == lowerStr nm) <;> simp [List.filter_cons, hp, hcp]
  · unfold revenueForDate
    cases hp : decide (r.date = dt) <;> simp [List.filter_cons, hp, hcp]
  · simp [ragTotalRevenue, List.filter_cons, hcp]

/-- Claim C7 (confirmed).  When the historical dataset yields zero historical months,
`predict_future_sales` returns the explicit insufficient-data error result (error field,
prediction 0, confidence Low) and never a fabricated numeric forecast. -/
theorem c7_insufficient_history (target : Date) (data : List PRecord)
    (h : analyzeHistoricalTrends data = []) :
    predictFutureSales target data =
      PredOutcome.failure "Insufficient historical data for prediction" 0 "Low" := by
  simp [predictFutureSales, h]

theorem c7_witness :
    analyzeHistoricalTrends ([] : List PRecord) = []
    ∧ predictFutureSales ⟨2026, 6, 15⟩ ([] : List PRecord) =
        PredOutcome.failure "Insufficient historical data for prediction" 0 "Low" :=
  ⟨rfl, c7_insufficient_history ⟨2026, 6, 15⟩ [] rfl⟩

/-- A minimal confirmed row used by concrete instances below. -/
def sampleRow (i : String) (dt : Date) (qty : String) : Row :=
  ⟨i, dt, "Confirmed", "Plain", "Premium", "Cotton", "Priya", "Alice", some qty, some "100"⟩

/-- A `Pending` row with quantity 2 and rate 5, used in concrete instances. -/
def pendingRow : Row :=
  ⟨"p1", ⟨2025, 5, 10⟩, "Pending", "Plain", "Premium", "Cotton", "Priya", "Alice",
   some "2", some "5"⟩

theorem c5_witness :
    pendingRow.status ≠ "Confirmed" ∧ pendingRow.status ≠ "Processed"
    ∧ (calculateRevenueByMonth [pendingRow] 2025 5 = calculateRevenueByMonth [] 2025 5
       ∧ calculateRevenueByYear [pendingRow] 2025 = calculateRevenueByYear [] 2025
       ∧ calculateRevenueByOrderId [pendingRow] "p1" = calculateRevenueByOrderId [] "p1"
       ∧ revenueForCustomer [pendingRow] "Alice" = revenueForCustomer [] "Alice"
       ∧ revenueForAgent [pendingRow] "Priya" = revenueForAgent [] "Priya"
       ∧ revenueForDate [pendingRow] ⟨2025, 5, 10⟩ = revenueForDate [] ⟨2025, 5, 10⟩
       ∧ ragTotalRevenue [pendingRow] = ragTotalRevenue []) :=
  ⟨by decide, by decide,
   c5_revenue_status_filter pendingRow [] 2025 5 "p1" "Alice" ⟨2025, 5, 10⟩
     (by decide) (by decide)⟩

/-- Claim C9 (confirmed).  The fuzzy vocabulary match of `is_sales_related_question`
accepts a candidate whose similarity ratio is exactly the configured cutoff and yields
no match when every candidate is strictly below it; the fixed keyword vocabulary is
checked at cutoff 0.6 and the live API values at cutoff 0.75. -/
theorem c9_fuzzy_threshold_boundary :
    (∀ (w : String) (poss : List String) (c : ℚ),
        ((∃ k ∈ poss, seqRatio k.data w.data = c) → hasCloseMatch w poss c = true)
        ∧ ((∀ k ∈ poss, seqRatio k.data w.data < c) → hasCloseMatch w poss c = false))
    ∧ (∀ q : String, keywordFuzzyHit q = true ↔
        ∃ w ∈ questionWords q, ∃ k ∈ salesKeywords, (3 : ℚ) / 5 ≤ seqRatio k.data w.data)
    ∧ (∀ (apiKeys : List String) (q : String), liveDataHit apiKeys q = true ↔
        ∃ w ∈ questionWords q,
          w ∈ apiKeys ∨ ∃ k ∈ apiKeys, (3 : ℚ) / 4 ≤ seqRatio k.data w.data) := by
  refine ⟨fun w poss c => ⟨?_, ?_⟩, fun q => ?_, fun apiKeys q => ?_⟩
  · rintro ⟨k, hk, he⟩
    simp only [hasCloseMatch, List.any_eq_true, decide_eq_true_eq]
    exact ⟨k, hk, le_of_eq he.symm⟩
  · intro h
    rw [← Bool.not_eq_true]
    simp only [hasCloseMatch, List.any_eq_true, decide_eq_true_eq]
    push_neg
    exact fun k hk => h k hk
  · simp only [keywordFuzzyHit, hasCloseMatch, List.any_eq_true, decide_eq_true_eq]
  · simp only [liveDataHit, hasCloseMatch, List.any_eq_true, Bool.or_eq_true,
      decide_eq_true_eq]

theorem c9_witness :
    (∃ k ∈ ["rate"], seqRatio k.data "ratxyz".data = (3 : ℚ) / 5)
    ∧ hasCloseMatch "ratxyz" ["rate"] ((3 : ℚ) / 5) = true
    ∧ (∀ k ∈ ["rate"], seqRatio k.data "zzzzzz".data < (3 : ℚ) / 5)
    ∧ hasCloseMatch "zzzzzz" ["rate"] ((3 : ℚ) / 5) = false := by
  have h1 : seqRatio "rate".data "ratxyz".data = (3 : ℚ) / 5 := by with_unfolding_all rfl
  have h2 : seqRatio "rate".data "zzzzzz".data = 0 := by with_unfolding_all rfl
  have he : ∃ k ∈ ["rate"], seqRatio k.data "ratxyz".data = (3 : ℚ) / 5 :=
    ⟨"rate", by simp, h1⟩
  have hl : ∀ k ∈ ["rate"], seqRatio k.data "zzzzzz".data < (3 : ℚ) / 5 := by
    intro k hk
    simp only [List.mem_singleton] at hk
    subst hk
    rw [h2]
    norm_num
  exact ⟨he, (c9_fuzzy_threshold_boundary.1 "ratxyz" ["rate"] _).1 he,
    hl, (c9_fuzzy_threshold_boundary.1 "zzzzzz" ["rate"] _).2 hl⟩

/-! ### Claim C1 -/

/-- Rows with two weave keys tied at the maximal summed quantity (A=3, B=3, C=1). -/
def tieRows : List Row :=
  [⟨"1", ⟨2025, 5, 10⟩, "Confirmed", "A", "Premium", "Cotton", "Priya", "Alice",
    some "3", some "1"⟩,
   ⟨"2", ⟨2025, 5, 11⟩, "Confirmed", "B", "Premium", "Cotton", "Priya", "Alice",
    some "3", some "1"⟩,
   ⟨"3", ⟨2025, 5, 12⟩, "Confirmed", "C", "Premium", "Cotton", "Priya", "Alice",
    some "1", some "1"⟩]

/-- Claim C1 is false on the code: on A=3, B=3, C=1 the most-sold handler names the
single winner `a` — its result (the template "Most sold weave: **{winner}** ...") has no
tie flag and no tie statement — even though `b` attains the same maximal sum. -/
theorem c1_counterexample :
    mostSoldBy (fun r => r.weave) tieRows =
      some ⟨"a", 3, [("a", 3), ("b", 3), ("c", 1)]⟩
    ∧ groupQtySum tieRows (fun r => r.weave) "a" = 3
    ∧ groupQtySum tieRows (fun r => r.weave) "b" = 3
    ∧ ("a" : String) ≠ "b" :=
  ⟨by with_unfolding_all rfl, by with_unfolding_all rfl, by with_unfolding_all rfl,
   by decide⟩

/-- Claim C1 as amended.  The most-sold handler always names a single winner (one of
the group keys, ties broken by sort order, no tie flag); the named winner does attain
the maximal summed quantity over all group keys. -/
theorem c1_amended (key : Row → String) (valid : List Row) (res : Ranked)
    (h : mostSoldBy key valid = some res) :
    res.winner ∈ groupKeysBy valid key
    ∧ res.topQty = groupQtySum valid key res.winner
    ∧ ∀ k ∈ groupKeysBy valid key, groupQtySum valid key k ≤ res.topQty := by
  unfold mostSoldBy at h
  cases hs : List.insertionSort pairGe (groupPairs valid key) with
  | nil => rw [hs] at h; exact absurd h (by simp)
  | cons p ps =>
    rw [hs] at h
    simp only [Option.some.injEq] at h
    subst h
    have hperm : List.Perm (List.insertionSort pairGe (groupPairs valid key))
        (groupPairs valid key) :=
      List.perm_insertionSort pairGe _
    have hmem : p ∈ groupPairs valid key := by
      rw [← hperm.mem_iff, hs]
      exact List.mem_cons_self _ _
    obtain ⟨k0, hk0, hpe⟩ := List.mem_map.mp hmem
    have hw : p.1 = k0 := by rw [← hpe]
    have hq : p.2 = groupQtySum valid key k0 := by rw [← hpe]
    refine ⟨?_, ?_, ?_⟩
    · show p.1 ∈ groupKeysBy valid key
      rw [hw]; exact hk0
    · show p.2 = groupQtySum valid key p.1
      rw [hq, hw]
    · intro k hk
      have hkp : (k, groupQtySum valid key k) ∈ groupPairs valid key :=
        List.mem_map_of_mem _ hk
      have hks : (k, groupQtySum valid key k) ∈
          List.insertionSort pairGe (groupPairs valid key) := hperm.mem_iff.mpr hkp
      rw [hs] at hks
      rcases List.mem_cons.mp hks with he | ht
      · have := congrArg Prod.snd he
        simpa using le_of_eq this
      · have hsorted : List.Sorted pairGe (List.insertionSort pairGe (groupPairs valid key)) :=
          List.sorted_insertionSort pairGe _
        rw [hs] at hsorted
        exact List.rel_of_sorted_cons hsorted _ ht

def tieRanked : Ranked := ⟨"a", 3, [("a", 3), ("b", 3), ("c", 1)]⟩

theorem c1_amended_witness :
    mostSoldBy (fun r => r.weave) tieRows = some tieRanked
    ∧ (tieRanked.winner ∈ groupKeysBy tieRows (fun r => r.weave)
       ∧ tieRanked.topQty = groupQtySum tieRows (fun r => r.weave) tieRanked.winner
       ∧ ∀ k ∈ groupKeysBy tieRows (fun r => r.weave),
           groupQtySum tieRows (fun r => r.weave) k ≤ tieRanked.topQty) :=
  ⟨by with_unfolding_all rfl,
   c1_amended (fun r => r.weave) tieRows tieRanked (by with_unfolding_all rfl)⟩

/-! ### Claim C2 -/

def mayQuestion : String := "how many sales in may 2025"

def may2024Rows : List Row := [sampleRow "1" ⟨2024, 5, 10⟩ "2"]

/-- Claim C2 is false on the code: for "how many sales in may 2025" the month branch of
`filter_by_date` filters on the month alone and returns before the year stage, so a
single May-2024 record is reported as 1, while zero records fall in May 2025. -/
theorem c2_counterexample :
    smartRoutesToCount mayQuestion = true
    ∧ smartSalesCount may2024Rows mayQuestion = 1
    ∧ (may2024Rows.filter
        (fun r => decide (r.date.year = 2025 ∧ r.date.month = 5))).length = 0 :=
  ⟨by decide, by decide, by decide⟩

/-- Claim C2 as amended.  When no explicit numeric date matches and a month keyword is
present, the reported sales count equals the number of individual records whose date
falls in that month in any year (the year in the question is ignored); records sharing
a date are still counted separately. -/
theorem c2_amended (rows : List Row) (q : String) (nm : String) (m : Nat)
    (h1 : searchDMY q.data = none) (h2 : searchYMD q.data = none)
    (h3 : firstMonthHit (lowerChars q.data) = some (nm, m)) :
    smartSalesCount rows q = (rows.filter (fun r => r.date.month == m)).length := by
  have hf : filterByDate rows q =
      (rows.filter (fun r => r.date.month == m), "in " ++ titleCase nm) := by
    unfold filterByDate tryDatePattern2 monthYearFilter
    simp only [h1, h2, h3]
  unfold smartSalesCount salesCountReport reportedCount
  rw [hf]
  by_cases hd : 0 <
      ((rows.filter (fun r => r.date.month == m)).filter
        (fun r => r.status == "Declined")).length
  · rw [if_pos hd]
  · have hnone : (rows.filter (fun r => r.date.month == m)).filter
        (fun r => r.status == "Declined") = [] := by
      cases hFd : (rows.filter (fun r => r.date.month == m)).filter
          (fun r => r.status == "Declined") with
      | nil => rfl
      | cons a l => rw [hFd] at hd; simp at hd
    have hall : validData (rows.filter (fun r => r.date.month == m)) =
        rows.filter (fun r => r.date.month == m) := by
      apply List.filter_eq_self.mpr
      intro r hr
      have hb := List.filter_eq_nil_iff.mp hnone r hr
      simp only [notDeclined, bne_iff_ne, ne_eq]
      simpa using hb
    rw [if_neg hd]
    simp [hall]

def may2025Rows : List Row :=
  [sampleRow "1" ⟨2025, 5, 1⟩ "1", sampleRow "2" ⟨2025, 5, 2⟩ "1",
   sampleRow "3" ⟨2025, 5, 2⟩ "1", sampleRow "4" ⟨2025, 5, 20⟩ "1"]

theorem c2_amended_witness :
    searchDMY mayQuestion.data = none
    ∧ searchYMD mayQuestion.data = none
    ∧ firstMonthHit (lowerChars mayQuestion.data) = some ("may", 5)
    ∧ smartSalesCount may2025Rows mayQuestion =
        (may2025Rows.filter (fun r => r.date.month == 5)).length
    ∧ (may2025Rows.filter (fun r => r.date.month == 5)).length = 4 :=
  ⟨by decide, by decide, by decide,
   c2_amended may2025Rows mayQuestion "may" 5 (by decide) (by decide) (by decide),
   by decide⟩

/-! ### Claim C3 -/

def revenueQuestion : String := "total revenue"

/-- Claim C3 is false on the code: a `Pending` row (quantity 2, rate 5) contributes 10
to the smart handler's total-revenue statistic, which excludes only `Declined` rows. -/
theorem c3_counterexample :
    smartRoutesToTotalRevenue revenueQuestion = true
    ∧ pendingRow.status = "Pending"
    ∧ smartTotalRevenue [pendingRow] revenueQuestion = 10
    ∧ smartTotalRevenue [] revenueQuestion = 0
    ∧ ((10 : ℚ) ≠ 0) :=
  ⟨by decide, by decide, by with_unfolding_all rfl, by with_unfolding_all rfl,
   by norm_num⟩

/-- Claim C3 as amended.  A non-`Confirmed`/`Processed` (hence any `Pending`) row
contributes 0 to the rag chatbot's total-revenue computation, and a `Declined` row
contributes 0 to the most-sold quantity sums and to the smart handler's total-revenue
statistic; but `Pending` rows do enter the smart handler's total revenue, which
excludes only `Declined`. -/
theorem c3_amended :
    (∀ (r : Row) (df : List Row), r.status ≠ "Confirmed" → r.status ≠ "Processed" →
        ragTotalRevenue (r :: df) = ragTotalRevenue df)
    ∧ (∀ (r : Row) (d : List Row) (key : Row → String), r.status = "Declined" →
        mostSoldBy key (validData (r :: d)) = mostSoldBy key (validData d))
    ∧ (∀ (r : Row) (d : List Row), r.status = "Declined" →
        totalRevenueStat (validData (r :: d)) = totalRevenueStat (validData d)) := by
  refine ⟨fun r df h1 h2 => ?_, fun r d key h => ?_, fun r d h => ?_⟩
  · have hcp : statusCP r = false := by
      simp only [statusCP, Bool.or_eq_false_iff, beq_eq_false_iff_ne, ne_eq]
      exact ⟨h1, h2⟩
    simp [ragTotalRevenue, List.filter_cons, hcp]
  · have hnd : notDeclined r = false := by simp [notDeclined, h]
    simp [validData, List.filter_cons, hnd]
  · have hnd : notDeclined r = false := by simp [notDeclined, h]
    simp [validData, List.filter_cons, hnd]

def declinedRow : Row :=
  ⟨"d1", ⟨2025, 5, 11⟩, "Declined", "Plain", "Premium", "Cotton", "Priya", "Alice",
   some "7", some "3"⟩

theorem c3_amended_witness :
    pendingRow.status ≠ "Confirmed" ∧ pendingRow.status ≠ "Processed"
    ∧ ragTotalRevenue [pendingRow] = ragTotalRevenue []
    ∧ declinedRow.status = "Declined"
    ∧ mostSoldBy (fun r => r.weave) (validData [declinedRow]) =
        mostSoldBy (fun r => r.weave) (validData [])
    ∧ totalRevenueStat (validData [declinedRow]) = totalRevenueStat (validData []) :=
  ⟨by decide, by decide, c3_amended.1 pendingRow [] (by decide) (by decide),
   by decide, c3_amended.2.1 declinedRow [] _ rfl, c3_amended.2.2 declinedRow [] rfl⟩

/-! ### Claim C8 -/

/-- Claim C8 (confirmed).  With exactly one historical month the prediction is a
defined (non-error) result whose seasonal factor is 1.0 (and whose growth rate is the
5% default), and whose confidence is High when the signed month difference from the
latest historical month to the target is at most 6, Medium when at most 12, and Low
otherwise. -/
theorem c8_one_month_seasonal (target : Date) (data : List PRecord)
    (h : (analyzeHistoricalTrends data).length = 1) :
    ∃ pq pr po : ℚ,
      predictFutureSales target data =
        PredOutcome.success pq pr po 5 1
          (if monthsAheadOf target data ≤ 6 then "High"
           else if monthsAheadOf target data ≤ 12 then "Medium" else "Low")
          (monthsAheadOf target data) 1 := by
  obtain ⟨e, hone⟩ := List.length_eq_one.mp h
  have hg : calculateGrowthRates [e] = [] := by
    simp [calculateGrowthRates, List.insertionSort, List.orderedInsert]
  have hb : ¬((1 : ℚ) + 5 / 100 = 0 ∧ monthsAheadOf target data < 0) := by
    rintro ⟨hz, -⟩
    norm_num at hz
  unfold predictFutureSales
  by_cases hm : e.1 % 100 = target.month
  · by_cases hq : (0 : ℚ) < e.2.totalQuantity
    · simp only [hone, hg, hm, decide_True, List.isEmpty_cons, List.isEmpty_nil,
        Bool.false_eq_true, if_false, if_true, eq_self_iff_true, List.length_cons,
        List.length_nil, List.map_cons, List.map_nil, List.sum_cons, List.sum_nil,
        Nat.cast_one, Nat.cast_zero, List.filter_cons, List.filter_nil, add_zero,
        zero_add, div_one, hq, div_self (ne_of_gt hq)]
      rw [if_neg hb]
      exact ⟨_, _, _, rfl⟩
    · simp only [hone, hg, hm, decide_True, List.isEmpty_cons, List.isEmpty_nil,
        Bool.false_eq_true, if_false, if_true, eq_self_iff_true, List.length_cons,
        List.length_nil, List.map_cons, List.map_nil, List.sum_cons, List.sum_nil,
        Nat.cast_one, Nat.cast_zero, List.filter_cons, List.filter_nil, add_zero,
        zero_add, div_one, hq]
      rw [if_neg hb]
      exact ⟨_, _, _, rfl⟩
  · simp only [hone, hg, hm, decide_False, List.isEmpty_cons, List.isEmpty_nil,
      Bool.false_eq_true, if_false, if_true, eq_self_iff_true, List.length_cons,
      List.length_nil, List.map_cons, List.map_nil, List.sum_cons, List.sum_nil,
      Nat.cast_one, Nat.cast_zero, List.filter_cons, List.filter_nil, add_zero,
      zero_add, div_one]
    rw [if_neg hb]
    exact ⟨_, _, _, rfl⟩

theorem c8_witness :
    (analyzeHistoricalTrends [(⟨some ⟨2025, 5, 10⟩, some 4, some 2⟩ : PRecord)]).length = 1
    ∧ ∃ pq pr po : ℚ,
        predictFutureSales ⟨2025, 9, 15⟩ [(⟨some ⟨2025, 5, 10⟩, some 4, some 2⟩ : PRecord)] =
          PredOutcome.success pq pr po 5 1
            (if monthsAheadOf ⟨2025, 9, 15⟩ [(⟨some ⟨2025, 5, 10⟩, some 4, some 2⟩ : PRecord)] ≤ 6
             then "High"
             else if monthsAheadOf ⟨2025, 9, 15⟩
                 [(⟨some ⟨2025, 5, 10⟩, some 4, some 2⟩ : PRecord)] ≤ 12
             then "Medium" else "Low")
            (monthsAheadOf ⟨2025, 9, 15⟩ [(⟨some ⟨2025, 5, 10⟩, some 4, some 2⟩ : PRecord)]) 1 :=
  ⟨by with_unfolding_all rfl,
   c8_one_month_seasonal ⟨2025, 9, 15⟩ [⟨some ⟨2025, 5, 10⟩, some 4, some 2⟩]
     (by with_unfolding_all rfl)⟩

/-! ### Claim C6 -/

lemma takeWhile_append_stop (p : Char → Bool) (l1 : List Char) (x : Char) (l2 : List Char)
    (h1 : ∀ c ∈ l1, p c = true) (hx : p x = false) :
    (l1 ++ x :: l2).takeWhile p = l1 ∧ (l1 ++ x :: l2).dropWhile p = x :: l2 := by
  induction l1 with
  | nil => simp [List.takeWhile_cons, List.dropWhile_cons, hx]
  | cons a t ih =>
    have ha : p a = true := h1 a (List.mem_cons_self a t)
    have iht := ih (fun c hc => h1 c (List.mem_cons_of_mem a hc))
    simp [List.takeWhile_cons, List.dropWhile_cons, ha, iht.1, iht.2]

lemma parse_digits (ds : List Char) (hd : ∀ c ∈ ds, isDigitChar c = true) :
    parseDecimalCore ds = if ds.isEmpty then none else some (natOfDigits ds : ℚ) := by
  unfold parseDecimalCore
  rw [List.takeWhile_eq_self_iff.mpr hd, List.dropWhile_eq_nil_iff.mpr hd]

lemma parse_digits_dot (ds1 ds2 : List Char) (h1 : ∀ c ∈ ds1, isDigitChar c = true)
    (h2 : ∀ c ∈ ds2, isDigitChar c = true) :
    parseDecimalCore (ds1 ++ '.' :: ds2) =
      if ds1.isEmpty && ds2.isEmpty then none
      else some ((natOfDigits ds1 : ℚ) + (natOfDigits ds2 : ℚ) / 10 ^ ds2.length) := by
  obtain ⟨ht, hdw⟩ := takeWhile_append_stop isDigitChar ds1 '.' ds2 h1 (by decide)
  unfold parseDecimalCore
  rw [ht, hdw]
  simp only [List.takeWhile_eq_self_iff.mpr h2, List.dropWhile_eq_nil_iff.mpr h2]
  simp

lemma filter_ne_comma (run : List Char) (hall : ∀ c ∈ run, isNumTokChar c = true) :
    run.filter (fun c => c ≠ ',') = run.filter isDigitChar := by
  apply List.filter_congr
  intro c hc
  have h := hall c hc
  simp only [isNumTokChar, Bool.or_eq_true, decide_eq_true_eq] at h
  rcases h with hd | he
  · have hne : ¬c = ',' := by
      intro he2
      rw [he2] at hd
      exact absurd hd (by decide)
    simp [isDigitChar, hd, hne]
  · subst he
    decide

lemma any_filter_ne_nil (p : Char → Bool) (l : List Char) :
    l.any p = true ↔ l.filter p ≠ [] := by
  rw [List.any_eq_true]
  constructor
  · rintro ⟨x, hx, hp⟩ hnil
    exact List.filter_eq_nil_iff.mp hnil x hx hp
  · intro hne
    cases hf : l.filter p with
    | nil => exact absurd hf hne
    | cons a t =>
      have ha : a ∈ l.filter p := by
        rw [hf]
        exact List.mem_cons_self a t
      have hm := List.mem_filter.mp ha
      exact ⟨a, hm.1, hm.2⟩

lemma any_digit_of_ne_nil (ds : List Char) (h : ∀ c ∈ ds, isDigitChar c = true)
    (hne : ds ≠ []) : ds.any isDigitChar = true := by
  cases ds with
  | nil => exact absurd rfl hne
  | cons a t => simp [List.any_cons, h a (List.mem_cons_self a t)]

/-- Every token produced by the quantity regex is a nonempty digit/comma run optionally
followed by a dot and a digit run. -/
lemma findNumToken_shape : ∀ (cs tok : List Char), findNumToken cs = some tok →
    ∃ run rest, tok = run ++ rest ∧ run ≠ [] ∧ (∀ c ∈ run, isNumTokChar c = true)
      ∧ (rest = [] ∨ ∃ ds2, rest = '.' :: ds2 ∧ ∀ c ∈ ds2, isDigitChar c = true) := by
  intro cs
  induction cs with
  | nil =>
    intro tok h
    simp [findNumToken] at h
  | cons c cs ih =>
    intro tok h
    simp only [findNumToken] at h
    by_cases hc : isNumTokChar c = true
    · rw [if_pos hc] at h
      split at h
      · rename_i rest2 heq
        have htok : tok =
            (c :: cs).takeWhile isNumTokChar ++ '.' :: rest2.takeWhile isDigitChar :=
          (Option.some.inj h).symm
        subst htok
        refine ⟨_, _, rfl, ?_, fun x hx => List.mem_takeWhile_imp hx,
          Or.inr ⟨_, rfl, fun x hx => List.mem_takeWhile_imp hx⟩⟩
        simp [List.takeWhile_cons, hc]
      · have htok : tok = (c :: cs).takeWhile isNumTokChar := (Option.some.inj h).symm
        subst htok
        refine ⟨_, [], (List.append_nil _).symm, ?_,
          fun x hx => List.mem_takeWhile_imp hx, Or.inl rfl⟩
        simp [List.takeWhile_cons, hc]
    · rw [if_neg hc] at h
      exact ih tok h

/-- Claim C6 is false on the code: on the cell "3.5" the cleaner returns 3.5, while the
claim's wording (the numeric value of the first run of digits with optional thousands
separators) gives 3 — the regex also captures a decimal continuation. -/
theorem c6_counterexample :
    extractQuantity (some "3.5") = 7 / 2
    ∧ specQuantityOrig (some "3.5") = 3
    ∧ ((7 : ℚ) / 2 ≠ 3) :=
  ⟨by with_unfolding_all rfl, by with_unfolding_all rfl, by norm_num⟩

/-- Claim C6 as amended.  Quantity cleaning is total: no error ever escapes
(`extractQuantityE` always returns `ok`); the value returned is the numeric value of
the first maximal run of digits/thousands-separators together with its optional
decimal continuation when that token contains a digit and 0 otherwise (garbage,
missing and digit-free cells included); an invalid rate coerces to 0. -/
theorem c6_amended : ∀ v : Option String,
    extractQuantityE v = Except.ok (extractQuantity v)
    ∧ extractQuantity v = specQuantityAmended v
    ∧ (pdToNumeric v = none → rateClean v = 0) := by
  intro v
  refine ⟨?_, ?_, ?_⟩
  · cases v with
    | none => rfl
    | some s =>
      unfold extractQuantity extractQuantityE
      by_cases hgar : lowerChars (trimChars s.data) ∈ garbageTokens
      · simp [hgar]
      · cases hf : findNumToken (lowerChars (trimChars s.data)) with
        | none => simp [hgar, hf]
        | some tok =>
          cases hp : parseDecimalCore (tok.filter (fun c => c ≠ ',')) with
          | none =>
            simp only [ne_eq, decide_not] at hp
            simp [hgar, hf, hp]
          | some q =>
            simp only [ne_eq, decide_not] at hp
            simp [hgar, hf, hp]
  · cases v with
    | none => rfl
    | some s =>
      unfold extractQuantity specQuantityAmended
      by_cases hgar : lowerChars (trimChars s.data) ∈ garbageTokens
      · have hnone : findNumToken (lowerChars (trimChars s.data)) = none := by
          have hg2 := hgar
          simp only [garbageTokens, List.mem_cons, List.not_mem_nil, or_false] at hg2
          rcases hg2 with h | h | h | h | h | h | h | h | h | h <;> rw [h] <;> decide
        simp [hgar, hnone]
      · simp only [hgar, if_false]
        cases hf : findNumToken (lowerChars (trimChars s.data)) with
        | none => rfl
        | some tok =>
          dsimp only
          obtain ⟨run, rest, htok, hrne, hrall, hrest⟩ := findNumToken_shape _ _ hf
          have hdig : ∀ c ∈ run.filter isDigitChar, isDigitChar c = true :=
            fun c hc => (List.mem_filter.mp hc).2
          rcases hrest with hre | ⟨ds2, hre, hds2⟩
          · rw [hre, List.append_nil] at htok
            rw [htok, filter_ne_comma run hrall, parse_digits _ hdig]
            by_cases hany : run.any isDigitChar = true
            · have hne2 : run.filter isDigitChar ≠ [] := (any_filter_ne_nil _ _).mp hany
              have hemp : (run.filter isDigitChar).isEmpty = false := by
                cases he2 : run.filter isDigitChar with
                | nil => exact absurd he2 hne2
                | cons a t => rfl
              simp [hany, hemp]
            · have hnil : run.filter isDigitChar = [] := by
                by_contra hne2
                exact hany ((any_filter_ne_nil _ _).mpr hne2)
              simp [hany, hnil]
          · rw [hre] at htok
            have hds2nc : ('.' :: ds2).filter (fun c => c ≠ ',') = '.' :: ds2 := by
              apply List.filter_eq_self.mpr
              intro c hc
              rcases List.mem_cons.mp hc with hc2 | hc2
              · subst hc2
                decide
              · have hd2 := hds2 c hc2
                simp only [decide_eq_true_eq]
                intro he2
                rw [he2] at hd2
                exact absurd hd2 (by decide)
            rw [htok, List.filter_append, filter_ne_comma run hrall, hds2nc,
              parse_digits_dot _ _ hdig hds2]
            have hanyapp : (run ++ '.' :: ds2).any isDigitChar =
                (run.any isDigitChar || ds2.any isDigitChar) := by
              rw [List.any_append]
              simp [List.any_cons, show isDigitChar '.' = false by decide]
            by_cases h1 : run.any isDigitChar = true
            · have hne2 : run.filter isDigitChar ≠ [] := (any_filter_ne_nil _ _).mp h1
              have hemp : (run.filter isDigitChar).isEmpty = false := by
                cases he2 : run.filter isDigitChar with
                | nil => exact absurd he2 hne2
                | cons a t => rfl
              simp [hanyapp, h1, hemp]
            · have hnil : run.filter isDigitChar = [] := by
                by_contra hne2
                exact h1 ((any_filter_ne_nil _ _).mpr hne2)
              cases hds2e : ds2 with
              | nil =>
                have hall0 : (run ++ '.' :: ds2).any isDigitChar = false := by
                  rw [hanyapp]
                  simp only [Bool.or_eq_false_iff]
                  constructor
                  · cases h2 : run.any isDigitChar with
                    | false => rfl
                    | true => exact absurd h2 h1
                  · rw [hds2e]
                    rfl
                simp [hall0, hnil, hds2e]
              | cons a t =>
                have ha : isDigitChar a = true :=
                  hds2 a (by rw [hds2e]; exact List.mem_cons_self a t)
                simp [hanyapp, h1, hnil, hds2e, ha]
  · intro h
    unfold rateClean
    rw [h]
    rfl

theorem c6_amended_witness :
    (extractQuantityE (some "1,2x7.5 yards") =
        Except.ok (extractQuantity (some "1,2x7.5 yards"))
     ∧ extractQuantity (some "1,2x7.5 yards") = specQuantityAmended (some "1,2x7.5 yards")
     ∧ (pdToNumeric (some "1,2x7.5 yards") = none → rateClean (some "1,2x7.5 yards") = 0))
    ∧ pdToNumeric (some "abc") = none
    ∧ rateClean (some "abc") = 0 := by
  refine ⟨c6_amended (some "1,2x7.5 yards"), by with_unfolding_all rfl, ?_⟩
  exact (c6_amended (some "abc")).2.2 (by with_unfolding_all rfl)

end FabricChatbot
